import Mathlib

/-!
Verification development for the GMLAS schema-driven XML-to-relational
mapping engine described in the repository specification. The engine itself
(the GMLAS driver) is not part of the checked-in sources, which only contain
its test suite; every definition below is therefore modelled from the
specification text, and the test suite is used to pick the concrete inputs
that exercise each property.
-/

set_option autoImplicit false

namespace Gmlas

/-- Modelled from the spec: a qualified XML name, namespace identifier
(`none` for documents without a namespace) plus local name. The driver
code that manipulates qualified names is not under `src/`. -/
abbrev QName := Option String × String

/-- Modelled from the spec: rendering of a qualified name the way the
driver prints it in diagnostics (`prefix:name` or bare `name`). -/
def qnameStr (q : QName) : String :=
  match q.1 with
  | some p => p ++ ":" ++ q.2
  | none => q.2

/-- Modelled from the spec: the XPath that diagnostics use to reference a
direct child of a class, `parent/child`. -/
def childXPath (parent child : QName) : String :=
  qnameStr parent ++ "/" ++ qnameStr child

/-- Modelled from the spec (section 7): the non-fatal diagnostic taxonomy of
the engine; the driver code emitting them is not under `src/`. -/
inductive Diag where
  | duplicateNonArrayField (xpath : String)
  | unexpectedElement (xpath : String)
  | ignoredXPathMatchedInInstance (xpath : String)
  | validationError (msg : String)
  deriving DecidableEq, Repr

/-- Modelled from the spec: one step of a source XPath, either an element
step or an attribute step. -/
inductive XStep where
  | elem (q : QName)
  | attr (q : QName)
  deriving DecidableEq, Repr

/-- Modelled from the spec (section 4.3): one step of a restricted XPath
pattern; `deep` records that the step is preceded by the `//`
descendant-or-self wildcard (relative patterns start implicitly deep). -/
structure PatStep where
  deep : Bool
  step : XStep
  deriving DecidableEq, Repr

/-- Modelled from the spec: a parsed exclusion pattern. -/
abbrev XPattern := List PatStep

/-- Modelled from the spec (section 4.3): matching a pattern against a full
source XPath; a plain step must match the next step exactly, a `deep` step
may first skip any number of leading steps, and the pattern must consume
the whole path. -/
def matchSteps : XPattern → List XStep → Bool
  | [], [] => true
  | _ :: _, [] => false
  | [], _ :: _ => false
  | p :: ps, x :: xs =>
      (decide (p.step = x) && matchSteps ps xs) || (p.deep && matchSteps (p :: ps) xs)

/-- Modelled from the spec (section 4.3): an ignored-XPath rule, a pattern
together with its warn-if-matched-in-instance flag. -/
structure IgnoreRule where
  pat : XPattern
  warn : Bool
  deriving DecidableEq, Repr

/-- Modelled from the spec (section 3): a scalar or array field declaration
of a schema class, with its cardinality and minOccurs-derived flag. -/
structure FieldDecl where
  fname : QName
  isArray : Bool
  required : Bool
  deriving DecidableEq, Repr

/-- Modelled from the spec (section 3): one derived table (schema class)
with its ordered field list; the model-builder code is not under `src/`. -/
structure ClassDecl where
  cname : QName
  fields : List FieldDecl
  deriving DecidableEq, Repr

/-- Modelled from the spec: a streamed instance-document element, its
qualified name and its direct simple children (name, text value). -/
structure Elem where
  ename : QName
  children : List (QName × String)
  deriving DecidableEq, Repr

/-- Modelled from the spec (section 3): the value stored in a feature
field, a single scalar or an array of scalars. -/
inductive FieldValue where
  | single (s : String)
  | array (xs : List String)
  deriving DecidableEq, Repr

/-- Modelled from the spec: the in-progress feature of one open frame of
the instance mapper, the field assignments plus emitted diagnostics. -/
structure MapState where
  assigns : List (QName × FieldValue)
  diags : List Diag
  deriving DecidableEq, Repr

/-- Modelled from the spec: field lookup inside an in-progress feature. -/
def lookupField (assigns : List (QName × FieldValue)) (q : QName) : Option FieldValue :=
  (assigns.find? (fun a => decide (a.1 = q))).map (·.2)

/-- Modelled from the spec: overwrite the value of an already-present field
in place (last-write-wins for duplicate non-array occurrences). -/
def setAssign : List (QName × FieldValue) → QName → FieldValue → List (QName × FieldValue)
  | [], q, v => [(q, v)]
  | a :: rest, q, v => if a.1 = q then (q, v) :: rest else a :: setAssign rest q v

/-- Modelled from the spec (section 4.4): processing one child element of
an open frame. A declared array field accumulates; a declared non-array
field already holding a value is overwritten (last-write-wins) and a
`DuplicateNonArrayField` diagnostic referencing the duplicate XPath is
emitted; an undeclared child is checked against the ignored-XPath rules
(warn flag respected) and otherwise reported as `UnexpectedElement`. -/
def stepChild (cls : ClassDecl) (rules : List IgnoreRule) (st : MapState)
    (child : QName × String) : MapState :=
  match cls.fields.find? (fun f => decide (f.fname = child.1)) with
  | some f =>
      if f.isArray then
        match lookupField st.assigns child.1 with
        | some (FieldValue.array xs) =>
            { st with assigns := setAssign st.assigns child.1 (FieldValue.array (xs ++ [child.2])) }
        | _ =>
            { st with assigns := setAssign st.assigns child.1 (FieldValue.array [child.2]) }
      else
        match lookupField st.assigns child.1 with
        | some _ =>
            { assigns := setAssign st.assigns child.1 (FieldValue.single child.2),
              diags := st.diags ++ [Diag.duplicateNonArrayField (childXPath cls.cname child.1)] }
        | none =>
            { st with assigns := st.assigns ++ [(child.1, FieldValue.single child.2)] }
  | none =>
      match rules.find? (fun r => matchSteps r.pat [XStep.elem cls.cname, XStep.elem child.1]) with
      | some r =>
          if r.warn then
            { st with diags := st.diags ++ [Diag.ignoredXPathMatchedInInstance (childXPath cls.cname child.1)] }
          else st
      | none =>
          { st with diags := st.diags ++ [Diag.unexpectedElement (childXPath cls.cname child.1)] }

/-- Modelled from the spec (section 4.4): mapping one matched element into
an in-progress feature by streaming its children in document order. -/
def mapElem (cls : ClassDecl) (rules : List IgnoreRule) (e : Elem) : MapState :=
  e.children.foldl (stepChild cls rules) ⟨[], []⟩

/-- Modelled from the spec (section 4.4): mapping a whole document for one
class, one emitted feature per matching top-level element, with all
diagnostics routed to one sink list. -/
def mapDoc (cls : ClassDecl) (rules : List IgnoreRule) (doc : List Elem) :
    List (List (QName × FieldValue)) × List Diag :=
  let matched := doc.filter (fun e => decide (e.ename = cls.cname))
  (matched.map (fun e => (mapElem cls rules e).assigns),
   (matched.map (fun e => (mapElem cls rules e).diags)).flatten)

/-- The schema of the duplicate-non-array-field scenario: `main_elt`
declaring only `foo`, minOccurs=0, non-array. -/
def mainCls : ClassDecl :=
  ⟨(none, "main_elt"), [⟨(none, "foo"), false, false⟩]⟩

/-- The schema of the scenario variant where `bar` is also declared. -/
def mainBarCls : ClassDecl :=
  ⟨(none, "main_elt"), [⟨(none, "foo"), false, false⟩, ⟨(none, "bar"), false, false⟩]⟩

/-- The document with `foo` occurring twice inside one `main_elt`. -/
def dupDoc : List Elem :=
  [⟨(none, "main_elt"), [((none, "foo"), "foo_first"), ((none, "foo"), "foo_again")]⟩]

/-- The variant document where `bar` occurs between the two `foo`. -/
def dupDocVariant : List Elem :=
  [⟨(none, "main_elt"),
    [((none, "foo"), "foo_first"), ((none, "bar"), "bar"), ((none, "foo"), "foo_again")]⟩]

/-- C1: mapping `<main_elt><foo>foo_first</foo><foo>foo_again</foo></main_elt>`
against a schema declaring `foo` with minOccurs=0 (non-array) yields exactly
one Feature whose `foo` field equals the later occurrence `foo_again`
(last-write-wins), and exactly one non-fatal `DuplicateNonArrayField`
diagnostic referencing `main_elt/foo`; the same holds when a different
element (`bar`) occurs between the two duplicate occurrences. -/
theorem duplicate_nonarray_last_write_wins :
    mapDoc mainCls [] dupDoc =
      ([[((none, "foo"), FieldValue.single "foo_again")]],
       [Diag.duplicateNonArrayField "main_elt/foo"]) ∧
    mapDoc mainBarCls [] dupDocVariant =
      ([[((none, "foo"), FieldValue.single "foo_again"),
         ((none, "bar"), FieldValue.single "bar")]],
       [Diag.duplicateNonArrayField "main_elt/foo"]) := by
  constructor <;> rfl

/-- Modelled from the spec (section 4.2): a schema class as seen by the
table-naming step, its namespace identifier and its local name. -/
structure NsClass where
  nsid : String
  lname : String
  deriving DecidableEq, Repr

/-- Modelled from the spec (section 4.2): the generated table name of a
class; the builder disambiguates by prefixing the namespace identifier
only once a collision with a same-named class from another namespace is
detected, keeping non-colliding names unprefixed. -/
def tableName (classes : List NsClass) (c : NsClass) : String :=
  if classes.any (fun d => decide (d.lname = c.lname) && !(decide (d.nsid = c.nsid))) then
    c.nsid ++ "_" ++ c.lname
  else
    c.lname

theorem string_append_right_cancel {a b t : String} (h : a ++ t = b ++ t) : a = b := by
  apply String.ext
  have hd : a.data ++ t.data = b.data ++ t.data := by
    have ha := congrArg String.data h
    simpa [String.data_append] using ha
  exact List.append_cancel_right hd

/-- C2: whenever two classes of the built model share a local name but come
from different namespaces, their generated table names are distinct (the
namespace identifier is prefixed); and a class whose local name collides
with no other namespace keeps its bare, unprefixed local name. -/
theorem same_name_different_ns_tables_distinct :
    (∀ (classes : List NsClass) (c1 c2 : NsClass), c1 ∈ classes → c2 ∈ classes →
      c1.lname = c2.lname → c1.nsid ≠ c2.nsid →
      tableName classes c1 ≠ tableName classes c2) ∧
    (∀ (classes : List NsClass) (c : NsClass),
      (∀ d ∈ classes, d.lname = c.lname → d.nsid = c.nsid) →
      tableName classes c = c.lname) := by
  constructor
  · intro classes c1 c2 h1 h2 hl hn
    have hc1 : classes.any (fun d => decide (d.lname = c1.lname) && !(decide (d.nsid = c1.nsid))) = true := by
      rw [List.any_eq_true]
      refine ⟨c2, h2, ?_⟩
      have h2l : c2.lname = c1.lname := hl.symm
      simp [h2l]
      exact fun h => hn h.symm
    have hc2 : classes.any (fun d => decide (d.lname = c2.lname) && !(decide (d.nsid = c2.nsid))) = true := by
      rw [List.any_eq_true]
      refine ⟨c1, h1, ?_⟩
      simp [hl]
      exact hn
    rw [tableName, tableName, if_pos hc1, if_pos hc2, hl]
    intro h
    exact hn (string_append_right_cancel (string_append_right_cancel
      (by simpa [String.append_assoc] using h)))
  · intro classes c h
    rw [tableName, if_neg]
    simp only [List.any_eq_true, not_exists]
    rintro x ⟨hmem, hx⟩
    rcases Bool.and_eq_true_iff.1 hx with ⟨hl, hn⟩
    exact absurd (h x hmem (of_decide_eq_true hl)) (by simpa using hn)

/-- The classes of the same-element-in-different-namespaces test schema. -/
def nsTestClasses : List NsClass :=
  [⟨"myns", "elt"⟩, ⟨"myns", "realizationOfAbstractElt"⟩,
   ⟨"other_ns", "realizationOfAbstractElt"⟩]

/-- Witness for C2 at the test schema: the two realizations get the two
distinct prefixed names and the non-colliding `elt` stays unprefixed. -/
theorem same_name_different_ns_tables_distinct_witness :
    tableName nsTestClasses ⟨"myns", "realizationOfAbstractElt"⟩ ≠
      tableName nsTestClasses ⟨"other_ns", "realizationOfAbstractElt"⟩ ∧
    tableName nsTestClasses ⟨"myns", "elt"⟩ = "elt" := by
  refine ⟨same_name_different_ns_tables_distinct.1 nsTestClasses _ _ (by decide) (by decide)
    rfl (by decide), same_name_different_ns_tables_distinct.2 nsTestClasses _ (by decide)⟩

/-- Modelled from the spec: one `CompositionPart` occurrence inside a
repeated `composition` wrapper, its `my_id` attribute and `a` value. -/
structure PartElem where
  pid : String
  aval : String
  deriving DecidableEq, Repr

/-- Modelled from the spec (section 3): a junction-table row, carrying the
parent key and the target row's key; fields are optional so that being
populated is an observable property. -/
structure JunctionRow where
  parentPkid : Option String
  childPkid : Option String
  deriving DecidableEq, Repr

/-- Modelled from the spec: a row of the independent `CompositionPart`
table. -/
structure PartRow where
  pkid : String
  myId : Option String
  aField : Option String
  deriving DecidableEq, Repr

/-- Modelled from the spec (section 4.4): the key registered for a nested
independent child identified by its ID-bearing attribute. -/
def partKey (i : String) : String := "CompositionPart_" ++ i

/-- Modelled from the spec: de-duplication of part occurrences by their
identifier, keeping one representative per distinct identifier. -/
def keyDedup : List PartElem → List PartElem
  | [] => []
  | w :: ws =>
      if ws.any (fun v => decide (v.pid = w.pid)) then keyDedup ws else w :: keyDedup ws

/-- Modelled from the spec (sections 3 and 4.4): mapping the repeated
wrapper occurrences of one parent feature into the junction table (one row
per occurrence, carrying the parent key and the child key) and the
independent part table (one row per distinct identifier). -/
def mapComposition (parentPk : String) (ws : List PartElem) :
    List JunctionRow × List PartRow :=
  (ws.map (fun w => ⟨some parentPk, some (partKey w.pid)⟩),
   (keyDedup ws).map (fun w => ⟨partKey w.pid, some w.pid, some w.aval⟩))

theorem keyDedup_subset {ws : List PartElem} {w : PartElem} (h : w ∈ keyDedup ws) :
    w ∈ ws := by
  induction ws with
  | nil => simp [keyDedup] at h
  | cons v vs ih =>
      rw [keyDedup] at h
      by_cases hc : vs.any (fun u => decide (u.pid = v.pid)) = true
      · exact List.mem_cons_of_mem v (ih (by simpa [hc] using h))
      · rcases List.mem_cons.1 (by simpa [hc] using h) with h1 | h1
        · exact h1 ▸ List.mem_cons_self v vs
        · exact List.mem_cons_of_mem v (ih h1)

theorem mem_keyDedup_pid {ws : List PartElem} {i : String} :
    i ∈ (keyDedup ws).map (fun w => w.pid) ↔ i ∈ ws.map (fun w => w.pid) := by
  induction ws with
  | nil => simp [keyDedup]
  | cons v vs ih =>
      by_cases hc : vs.any (fun u => decide (u.pid = v.pid)) = true
      · rw [keyDedup, if_pos hc]
        rw [List.any_eq_true] at hc
        rcases hc with ⟨u, hu, hup⟩
        constructor
        · intro h
          exact List.mem_cons_of_mem _ (ih.1 h)
        · intro h
          rcases List.mem_cons.1 h with h1 | h1
          · refine ih.2 ?_
            rw [List.mem_map]
            refine ⟨u, hu, ?_⟩
            show u.pid = i
            rw [of_decide_eq_true hup]
            simpa using h1.symm
          · exact ih.2 h1
      · rw [keyDedup, if_neg hc]
        simp only [List.map_cons, List.mem_cons]
        exact or_congr Iff.rfl ih

theorem keyDedup_pid_nodup (ws : List PartElem) :
    ((keyDedup ws).map (fun w => w.pid)).Nodup := by
  induction ws with
  | nil => simp [keyDedup]
  | cons v vs ih =>
      by_cases hc : vs.any (fun u => decide (u.pid = v.pid)) = true
      · rw [keyDedup, if_pos hc]; exact ih
      · rw [keyDedup, if_neg hc]
        rw [List.map_cons, List.nodup_cons]
        refine ⟨fun hmem => ?_, ih⟩
        have : v.pid ∈ vs.map (fun w => w.pid) := mem_keyDedup_pid.1 hmem
        rw [List.mem_map] at this
        rcases this with ⟨u, hu, hup⟩
        refine hc ?_
        rw [List.any_eq_true]
        exact ⟨u, hu, decide_eq_true (by simpa using hup)⟩

/-- C3: every junction-table row produced for a containment/junction
relationship carries a populated parent key and a populated child key, one
junction row is produced per wrapper occurrence, and the independent part
table holds exactly one row per distinct `CompositionPart` identifier
(its identifier column is duplicate-free and covers exactly the
identifiers occurring in the document); concretely, two repeated wrappers
with identifiers `id1` and `id2` produce two fully-keyed junction rows and
two independent rows with `my_id` and `a` set. -/
theorem junction_rows_carry_parent_key :
    (∀ (pk : String) (ws : List PartElem),
      (mapComposition pk ws).1.length = ws.length ∧
      (∀ r ∈ (mapComposition pk ws).1, r.parentPkid.isSome ∧ r.childPkid.isSome) ∧
      ((mapComposition pk ws).2.map (fun r => r.myId)).Nodup ∧
      (∀ i : String, some i ∈ (mapComposition pk ws).2.map (fun r => r.myId) ↔
        i ∈ ws.map (fun w => w.pid))) ∧
    mapComposition "first_1" [⟨"id1", "a1"⟩, ⟨"id2", "a2"⟩] =
      ([⟨some "first_1", some "CompositionPart_id1"⟩,
        ⟨some "first_1", some "CompositionPart_id2"⟩],
       [⟨"CompositionPart_id1", some "id1", some "a1"⟩,
        ⟨"CompositionPart_id2", some "id2", some "a2"⟩]) := by
  constructor
  · intro pk ws
    refine ⟨by simp [mapComposition], ?_, ?_, ?_⟩
    · intro r hr
      rw [mapComposition] at hr
      rw [List.mem_map] at hr
      rcases hr with ⟨w, _, hw⟩
      rw [← hw]
      exact ⟨rfl, rfl⟩
    · have : (mapComposition pk ws).2.map (fun r => r.myId) =
          ((keyDedup ws).map (fun w => w.pid)).map some := by
        simp [mapComposition]
      rw [this]
      exact (keyDedup_pid_nodup ws).map (Option.some_injective String)
    · intro i
      have : (mapComposition pk ws).2.map (fun r => r.myId) =
          ((keyDedup ws).map (fun w => w.pid)).map some := by
        simp [mapComposition]
      rw [this]
      constructor
      · intro h
        rw [List.mem_map] at h
        rcases h with ⟨j, hj, hji⟩
        exact mem_keyDedup_pid.1 ((Option.some_injective String hji) ▸ hj)
      · intro h
        exact List.mem_map_of_mem some (mem_keyDedup_pid.2 h)
  · rfl

/-- Witness for C3 at the scenario of the composition test: the first
junction row of the two-wrapper document has both keys populated. -/
theorem junction_rows_carry_parent_key_witness :
    (⟨some "first_1", some "CompositionPart_id1"⟩ :
        JunctionRow).parentPkid.isSome = true ∧
    (⟨some "first_1", some "CompositionPart_id1"⟩ :
        JunctionRow).childPkid.isSome = true := by
  have h := (junction_rows_carry_parent_key.1 "first_1"
    [⟨"id1", "a1"⟩, ⟨"id2", "a2"⟩]).2.1
  exact h ⟨some "first_1", some "CompositionPart_id1"⟩ (by decide)

/-- Modelled from the spec (section 4.5): the validation switches of the
effective configuration, enabled and fail-on-error. -/
structure ValCfg where
  enabled : Bool
  failIfError : Bool
  deriving DecidableEq, Repr

/-- Modelled from the spec (section 7): the fatal error that aborts
dataset opening when validation is enabled with fail-on-error. -/
inductive OpenErr where
  | validationFailed
  deriving DecidableEq, Repr

/-- Modelled from the spec (section 4.5): schema validation of an instance
element against its class, one diagnostic per undeclared child and one per
missing required field. -/
def validateElem (cls : ClassDecl) (e : Elem) : List Diag :=
  (e.children.filter
      (fun c => !(cls.fields.any (fun f => decide (f.fname = c.1))))).map
    (fun c => Diag.validationError ("unexpected " ++ childXPath cls.cname c.1)) ++
  (cls.fields.filter
      (fun f => f.required && !(e.children.any (fun c => decide (c.1 = f.fname))))).map
    (fun f => Diag.validationError ("missing " ++ childXPath cls.cname f.fname))

/-- Modelled from the spec (sections 4.5 and 7): dataset opening with
validation routed to the diagnostic sink; when enabled with fail-on-error
and the document violates the schema, opening itself fails with
`ValidationFailed` and no tables are produced, otherwise mapping proceeds
unaffected. -/
def openDS (cfg : ValCfg) (cls : ClassDecl) (e : Elem) :
    Except OpenErr (List (QName × FieldValue)) × List Diag :=
  let vdiags := if cfg.enabled then validateElem cls e else []
  if cfg.enabled && cfg.failIfError && !(validateElem cls e).isEmpty then
    (Except.error OpenErr.validationFailed, vdiags)
  else
    (Except.ok (mapElem cls [] e).assigns, vdiags)

/-- C4: with validation enabled, opening fails because of validation if
and only if fail-on-error is requested and at least one schema violation
exists; when fail-on-error is off, all violation diagnostics are routed to
the sink and opening succeeds with the mapping unaffected. -/
theorem validation_fail_iff_failIfError_and_violation
    (cfg : ValCfg) (cls : ClassDecl) (e : Elem) (h : cfg.enabled = true) :
    ((openDS cfg cls e).1 = Except.error OpenErr.validationFailed ↔
      (cfg.failIfError = true ∧ validateElem cls e ≠ [])) ∧
    (cfg.failIfError = false →
      openDS cfg cls e = (Except.ok (mapElem cls [] e).assigns, validateElem cls e)) := by
  constructor
  · rw [openDS]
    rcases hf : cfg.failIfError with _ | _
    · simp [h, hf]
    · rcases hv : validateElem cls e with _ | ⟨d, ds⟩
      · simp [h, hf, hv]
      · simp [h, hf, hv]
  · intro hf
    rw [openDS]
    simp [h, hf]

/-- The schema of the validation test: `main_elt` requires a `foo` child. -/
def valCls : ClassDecl :=
  ⟨(none, "main_elt"), [⟨(none, "foo"), false, true⟩]⟩

/-- The invalid document of the validation test: `main_elt` holding only a
`bar` child, violating the schema twice (unexpected `bar`, missing
`foo`). -/
def invalidElem : Elem :=
  ⟨(none, "main_elt"), [((none, "bar"), "bar")]⟩

/-- Witness for C4: with validation enabled and fail-on-error requested,
opening the invalid document fails with `ValidationFailed`. -/
theorem validation_fail_iff_failIfError_and_violation_witness :
    (openDS ⟨true, true⟩ valCls invalidElem).1 =
      Except.error OpenErr.validationFailed :=
  (validation_fail_iff_failIfError_and_violation ⟨true, true⟩ valCls invalidElem rfl).1.mpr
    ⟨rfl, by decide⟩

/-- Modelled from the spec (section 4.4): the axis-order policy of
geometry extraction, auto by default, else forced swap or no-swap. -/
inductive SwapPolicy where
  | auto
  | yes
  | no
  deriving DecidableEq, Repr

/-- Modelled from the spec: the schema-declared coordinate reference
system information that matters to axis order, whether its declared axis
order is latitude-first. -/
structure CrsDecl where
  latLongOrder : Bool
  deriving DecidableEq, Repr

/-- Modelled from the spec: exchanging the X and Y coordinates. -/
def swapXY (c : Int × Int) : Int × Int := (c.2, c.1)

/-- Modelled from the spec (section 4.4): the coordinate order produced by
geometry extraction under an axis-order policy, `auto` following the
schema-declared axis order of the reference system. -/
def applySwap (pol : SwapPolicy) (crs : CrsDecl) (c : Int × Int) : Int × Int :=
  match pol with
  | SwapPolicy.yes => swapXY c
  | SwapPolicy.no => c
  | SwapPolicy.auto => if crs.latLongOrder then swapXY c else c

/-- Modelled from the spec: splitting a character list on a separator
character, keeping empty segments. -/
def splitOnChar (sep : Char) : List Char → List (List Char)
  | [] => [[]]
  | c :: rest =>
      match splitOnChar sep rest with
      | [] => [[]]
      | w :: ws => if c = sep then [] :: w :: ws else (c :: w) :: ws

/-- Modelled from the spec: splitting a serialized coordinate list on the
blank separators. -/
def splitOnSpace (cs : List Char) : List (List Char) :=
  splitOnChar ' ' cs

/-- Modelled from the spec: decimal digit accumulation for coordinate
parsing. -/
def parseNatAux : Nat → List Char → Option Nat
  | acc, [] => some acc
  | acc, c :: rest =>
      if c.isDigit then parseNatAux (acc * 10 + (c.toNat - 48)) rest else none

/-- Modelled from the spec: parsing one signed decimal coordinate. -/
def parseIntChars : List Char → Option Int
  | [] => none
  | c :: rest =>
      if c = '-' then
        match rest with
        | [] => none
        | _ :: _ => (parseNatAux 0 rest).map (fun n => -(n : Int))
      else
        (parseNatAux 0 (c :: rest)).map (fun n => (n : Int))

/-- Modelled from the spec: parsing a serialized `gml:pos` coordinate pair
from the instance document. -/
def parsePos (s : String) : Option (Int × Int) :=
  match splitOnSpace s.data with
  | [a, b] =>
      match parseIntChars a, parseIntChars b with
      | some x, some y => some (x, y)
      | _, _ => none
  | _ => none

/-- Modelled from the spec: reading one geometry property, deserializing
the serialized position and applying the axis-order policy. -/
def readGeom (pol : SwapPolicy) (crs : CrsDecl) (s : String) : Option (Int × Int) :=
  (parsePos s).map (applySwap pol crs)

/-- The EPSG:4326 reference system declares latitude-first axis order. -/
def epsg4326 : CrsDecl := ⟨true⟩

/-- C7: for the same serialized geometry property, reading under
SwapCoordinates=NO and under SwapCoordinates=YES yield coordinates with X
and Y exchanged relative to each other, and under the default `auto`
policy the coordinate order follows the schema-declared axis order;
concretely the EPSG:4326 position `49 2` reads as POINT(49 2) under NO,
POINT(2 49) under YES, and POINT(2 49) under auto. -/
theorem swap_coordinates_exchanges_xy :
    (∀ (crs : CrsDecl) (s : String),
      readGeom SwapPolicy.yes crs s = (readGeom SwapPolicy.no crs s).map swapXY) ∧
    (∀ (crs : CrsDecl) (s : String),
      readGeom SwapPolicy.auto crs s =
        if crs.latLongOrder then readGeom SwapPolicy.yes crs s
        else readGeom SwapPolicy.no crs s) ∧
    readGeom SwapPolicy.no epsg4326 "49 2" = some (49, 2) ∧
    readGeom SwapPolicy.yes epsg4326 "49 2" = some (2, 49) ∧
    readGeom SwapPolicy.auto epsg4326 "49 2" = some (2, 49) := by
  refine ⟨?_, ?_, by decide, by decide, by decide⟩
  · intro crs s
    rw [readGeom, readGeom]
    rcases parsePos s with _ | c
    · rfl
    · rfl
  · intro crs s
    rw [readGeom, readGeom, readGeom]
    rcases hc : crs.latLongOrder with _ | _
    · rcases parsePos s with _ | c <;> simp [applySwap, hc]
    · rcases parsePos s with _ | c <;> simp [applySwap, hc]

/-- Modelled from the spec (section 4.1): the only resolution failure the
cache scenarios exercise. -/
inductive ResolveErr where
  | cannotResolve
  deriving DecidableEq, Repr

/-- Modelled from the spec: the state of the remote server hosting the
schema, reachable with some parsed content or unreachable. -/
inductive ServerState where
  | up (content : List NsClass)
  | down
  deriving DecidableEq, Repr

/-- Modelled from the spec (section 4.1): resolving a remote schema with
an on-disk cache. Without `REFRESH_CACHE` a populated cache entry is
reused without any fetch; with `REFRESH_CACHE` re-resolution is forced
regardless of cache contents and a fetch failure is an error rather than
a fallback to the stale copy. The result carries the resolved content,
the updated cache entry and whether a network fetch happened. -/
def resolveRemote (refresh : Bool) (cache : Option (List NsClass)) (srv : ServerState) :
    Except ResolveErr (List NsClass × Option (List NsClass) × Bool) :=
  if refresh then
    match srv with
    | ServerState.up c => Except.ok (c, some c, true)
    | ServerState.down => Except.error ResolveErr.cannotResolve
  else
    match cache with
    | some b => Except.ok (b, some b, false)
    | none =>
        match srv with
        | ServerState.up c => Except.ok (c, some c, true)
        | ServerState.down => Except.error ResolveErr.cannotResolve

/-- Modelled from the spec: the table set built from a resolved schema. -/
def tableSet (b : List NsClass) : List String := b.map (tableName b)

/-- Modelled from the spec: opening a document whose schema is remote,
returning the produced table set, the updated cache entry and whether a
fetch happened. -/
def openFromRemote (refresh : Bool) (cache : Option (List NsClass)) (srv : ServerState) :
    Except ResolveErr (List String × Option (List NsClass) × Bool) :=
  (resolveRemote refresh cache srv).map (fun r => (tableSet r.1, r.2.1, r.2.2))

/-- C8: with a populated, untouched cache, re-opening succeeds with the
table set built from the cached schema and performs no fetch even when the
server is unreachable, so any two such opens produce identical table sets;
with `REFRESH_CACHE` set, re-resolution is forced regardless of cache
contents: a reachable server is re-fetched, and a fetch failure makes the
open fail instead of falling back to the stale cached copy. -/
theorem cache_reuse_and_refresh :
    (∀ (content : List NsClass) (srv : ServerState),
      openFromRemote false (some content) srv =
        Except.ok (tableSet content, some content, false)) ∧
    (∀ (content : List NsClass) (s1 s2 : ServerState),
      openFromRemote false (some content) s1 = openFromRemote false (some content) s2) ∧
    (∀ cache : Option (List NsClass),
      openFromRemote true cache ServerState.down = Except.error ResolveErr.cannotResolve) ∧
    (∀ (cache : Option (List NsClass)) (c : List NsClass),
      openFromRemote true cache (ServerState.up c) =
        Except.ok (tableSet c, some c, true)) := by
  refine ⟨fun content srv => rfl, fun content s1 s2 => rfl,
    fun cache => rfl, fun cache c => rfl⟩

/-- Modelled from the spec (section 4.4 and section 6): the effective
value of `ExposeMetadataLayers`, the per-open key/value override taking
precedence over the declarative configuration document, which itself
overrides the built-in default (false). -/
def effectiveExposeMetadata (openOpt confOpt : Option Bool) : Bool :=
  match openOpt with
  | some b => b
  | none =>
      match confOpt with
      | some b => b
      | none => false

/-- Modelled from the spec: the number of layers exposed by an open
dataset, the data layers plus, when metadata layers are exposed, the
metadata layers. -/
def layerCount (dataLayers mdLayers : Nat) (expose : Bool) : Nat :=
  dataLayers + (if expose then mdLayers else 0)

/-- C9: when the declarative configuration document and a per-open
key/value override disagree, the per-open override takes precedence;
concretely, `ExposeMetadataLayers=true` in the configuration document
together with the open option `EXPOSE_METADATA_LAYERS=NO` exposes no
metadata layers (1 layer instead of the 4 the configuration alone
yields). -/
theorem open_option_overrides_config :
    (∀ (b : Bool) (conf : Option Bool), effectiveExposeMetadata (some b) conf = b) ∧
    layerCount 1 3 (effectiveExposeMetadata (some false) (some true)) = 1 ∧
    layerCount 1 3 (effectiveExposeMetadata none (some true)) = 4 := by
  exact ⟨fun b conf => rfl, rfl, rfl⟩

/-- Modelled from the spec (section 7): the fatal errors of the XPath
pattern engine, a syntax error naming the offending pattern and a
duplicate prefix declaration naming the prefix. -/
inductive XPathErr where
  | xpathSyntaxError (pat : String)
  | nsPrefixAlreadyMapped (pfx : String)
  deriving DecidableEq, Repr

/-- Modelled from the spec (section 4.3): validity of a name used as an
element/attribute step or namespace prefix: nonempty, starting with a
letter or underscore, containing only letters, digits and underscores (in
particular no predicate brackets). -/
def validNameChars : List Char → Bool
  | [] => false
  | c :: rest => (c.isAlpha || c = '_') && rest.all (fun d => d.isAlphanum || d = '_')

/-- Modelled from the spec (section 4.3): parsing one pattern step, an
optional leading `@` for attributes, then `name` or `prefixname` joined by
one colon, both parts valid names. -/
def parseStepTok (tok : List Char) : Option XStep :=
  let core :=
    match tok with
    | c :: cs => if c = '@' then (true, cs) else (false, tok)
    | [] => (false, ([] : List Char))
  match splitOnChar ':' core.2 with
  | [n] =>
      if validNameChars n then
        some (if core.1 then XStep.attr (none, String.mk n) else XStep.elem (none, String.mk n))
      else none
  | [p, n] =>
      if validNameChars p && validNameChars n then
        some (if core.1 then XStep.attr (some (String.mk p), String.mk n)
              else XStep.elem (some (String.mk p), String.mk n))
      else none
  | _ => none

/-- Modelled from the spec (section 4.3): turning the `/`-separated
segments of a pattern into pattern steps; an empty segment is the `//`
wildcard and makes the following step deep, an empty segment at the end or
an invalid step rejects the pattern. -/
def buildSteps : Bool → List (List Char) → Option (List PatStep)
  | _, [] => some []
  | deep, t :: rest =>
      match t with
      | [] =>
          match rest with
          | [] => none
          | _ :: _ => buildSteps true rest
      | _ :: _ =>
          match parseStepTok t with
          | some st => (buildSteps false rest).map (fun ps => { deep := deep, step := st } :: ps)
          | none => none

/-- Modelled from the spec (section 4.3): parsing a restricted XPath
pattern. The empty pattern, bare `@`, bare `:`, unresolvable constructs
and predicate syntax are rejected with `XPathSyntaxError` naming the
offending pattern; a relative pattern starts with an implicit
descendant-or-self step, an absolute one is anchored at the root. -/
def parseXPath (s : String) : Except XPathErr XPattern :=
  match s.data with
  | [] => Except.error (XPathErr.xpathSyntaxError s)
  | _ :: _ =>
      let toks := splitOnChar '/' s.data
      let split :=
        match toks with
        | [] :: rest => (false, rest)
        | _ => (true, toks)
      match buildSteps split.1 split.2 with
      | some p => Except.ok p
      | none => Except.error (XPathErr.xpathSyntaxError s)

/-- Modelled from the spec (section 4.3): building the namespace-prefix
table declared alongside a rule set; declaring the same prefix for two
different namespace URIs fails with `PrefixAlreadyMapped`. -/
def buildNsMap : List (String × String) → List (String × String) →
    Except XPathErr (List (String × String))
  | acc, [] => Except.ok acc
  | acc, (p, u) :: rest =>
      match acc.find? (fun q => decide (q.1 = p)) with
      | some q =>
          if q.2 = u then buildNsMap acc rest
          else Except.error (XPathErr.nsPrefixAlreadyMapped p)
      | none => buildNsMap (acc ++ [(p, u)]) rest

/-- Modelled from the spec: compiling the pattern list of an
`IgnoredXPaths` rule set while opening a dataset; the first syntactically
invalid pattern aborts the whole compilation (and with it the open). -/
def compileRules : List String → Except XPathErr (List XPattern)
  | [] => Except.ok []
  | s :: rest =>
      match parseXPath s with
      | Except.ok p => (compileRules rest).map (fun ps => p :: ps)
      | Except.error e2 => Except.error e2

/-- C6: the XPath pattern engine rejects the syntactically invalid
patterns — the empty pattern, bare `@`, bare `:`, unresolvable constructs
such as `a:`, and predicate syntax such as `foo[1]` or a filter predicate
— with `XPathSyntaxError` naming the offending pattern, which aborts
rule-set compilation (and thus dataset opening); and declaring the same
prefix for two different namespace URIs within one rule set fails with
`PrefixAlreadyMapped` naming the prefix. -/
theorem invalid_xpath_rejected :
    parseXPath "" = Except.error (XPathErr.xpathSyntaxError "") ∧
    parseXPath "@" = Except.error (XPathErr.xpathSyntaxError "@") ∧
    parseXPath ":" = Except.error (XPathErr.xpathSyntaxError ":") ∧
    parseXPath "a:" = Except.error (XPathErr.xpathSyntaxError "a:") ∧
    parseXPath "1" = Except.error (XPathErr.xpathSyntaxError "1") ∧
    parseXPath "foo[1]" = Except.error (XPathErr.xpathSyntaxError "foo[1]") ∧
    parseXPath "foo[@bar=baz]" = Except.error (XPathErr.xpathSyntaxError "foo[@bar=baz]") ∧
    compileRules ["foo[1]"] = Except.error (XPathErr.xpathSyntaxError "foo[1]") ∧
    buildNsMap [] [("ns", "http://ns1"), ("ns", "http://ns2")] =
      Except.error (XPathErr.nsPrefixAlreadyMapped "ns") ∧
    buildNsMap [] [("ns", "http://ns1"), ("ns", "http://ns1")] =
      Except.ok [("ns", "http://ns1")] := by
  refine ⟨rfl, rfl, rfl, rfl, rfl, rfl, rfl, rfl, rfl, rfl⟩

/-- Modelled from the spec (section 3): a field of the built model as the
exclusion engine sees it, its column name and its exact source XPath. -/
structure FieldM where
  colName : String
  xpath : List XStep
  deriving DecidableEq, Repr

/-- Modelled from the spec (section 4.2): the columns materialized for a
class: fields matched by an `IgnoredXPaths` rule are removed from the
built model entirely, independently of any instance document. -/
def buildColumns (fields : List FieldM) (rules : List IgnoreRule) : List FieldM :=
  fields.filter (fun f => !(rules.any (fun r => matchSteps r.pat f.xpath)))

/-- The source-XPath step of the test schema's `main_elt` element. -/
def mynsMainStep : XStep := XStep.elem (some "myns", "main_elt")

/-- The source-XPath step of the test schema's `string` element. -/
def mynsStringStep : XStep := XStep.elem (some "myns", "string")

/-- The `string` field of the test schema with its source XPath. -/
def stringFieldM : FieldM := ⟨"string", [mynsMainStep, mynsStringStep]⟩

/-- The `long` field of the test schema with its source XPath. -/
def longFieldM : FieldM := ⟨"long", [mynsMainStep, XStep.elem (some "myns", "long")]⟩

/-- The rule compiled from `//myns:string`, warn flag on. -/
def stringIgnoreRule : IgnoreRule := ⟨[⟨true, mynsStringStep⟩], true⟩

/-- A rule whose pattern matches nothing in the test schema. -/
def noMatchRule : IgnoreRule := ⟨[⟨true, XStep.elem (some "unknown_ns", "foo")⟩], true⟩

/-- The built model of `main_elt` after the `string` field was removed by
the ignore rule. -/
def ignModelCls : ClassDecl :=
  ⟨(some "myns", "main_elt"), [⟨(some "myns", "long"), false, false⟩]⟩

/-- An instance element carrying one occurrence of the ignored `string`
content. -/
def ignInstElem : Elem :=
  ⟨(some "myns", "main_elt"), [((some "myns", "string"), "foo"), ((some "myns", "long"), "12")]⟩

/-- An instance element carrying two occurrences of the ignored `string`
content. -/
def ignInstElemTwice : Elem :=
  ⟨(some "myns", "main_elt"),
   [((some "myns", "string"), "foo"), ((some "myns", "string"), "foo2")]⟩

/-- C5: a Field whose source XPath is matched by an `IgnoredXPaths` rule is
absent from the built model's columns (`buildColumns` consults only the
schema-derived field list, never the instance document, so this holds
regardless of instance content); the `//` descendant-or-self pattern
`//myns:string` parses to a deep step and removes exactly the `string`
field; with the warn flag on, reading past matching instance content emits
exactly one `IgnoredXPathMatchedInInstance` diagnostic per matching
occurrence; and a rule that matches no field leaves the built columns
unchanged (it silently never fires). -/
theorem ignored_xpath_removes_field :
    (∀ (fields : List FieldM) (rules : List IgnoreRule) (f : FieldM) (r : IgnoreRule),
      r ∈ rules → matchSteps r.pat f.xpath = true → f ∉ buildColumns fields rules) ∧
    parseXPath "//myns:string" = Except.ok [⟨true, mynsStringStep⟩] ∧
    buildColumns [stringFieldM, longFieldM] [stringIgnoreRule] = [longFieldM] ∧
    (mapElem ignModelCls [stringIgnoreRule] ignInstElem).diags =
      [Diag.ignoredXPathMatchedInInstance "myns:main_elt/myns:string"] ∧
    (mapElem ignModelCls [stringIgnoreRule] ignInstElem).assigns =
      [((some "myns", "long"), FieldValue.single "12")] ∧
    (mapElem ignModelCls [stringIgnoreRule] ignInstElemTwice).diags =
      [Diag.ignoredXPathMatchedInInstance "myns:main_elt/myns:string",
       Diag.ignoredXPathMatchedInInstance "myns:main_elt/myns:string"] ∧
    (∀ (fields : List FieldM) (rules : List IgnoreRule) (r : IgnoreRule),
      (∀ f ∈ fields, matchSteps r.pat f.xpath = false) →
      buildColumns fields (rules ++ [r]) = buildColumns fields rules) := by
  refine ⟨?_, rfl, rfl, rfl, rfl, rfl, ?_⟩
  · intro fields rules f r hr hm hmem
    rw [buildColumns] at hmem
    have hp := (List.mem_filter.1 hmem).2
    rw [Bool.not_eq_true', List.any_eq_false] at hp
    exact absurd hm (by simpa using hp r hr)
  · intro fields rules r h
    rw [buildColumns, buildColumns]
    apply List.filter_congr
    intro f hf
    have hfr := h f hf
    simp [List.any_append, hfr]

/-- Witness for C5: at the test schema, the `string` field matched by the
`//myns:string` rule is not among the built columns, and appending the
never-matching rule leaves the built columns unchanged. -/
theorem ignored_xpath_removes_field_witness :
    stringFieldM ∉ buildColumns [stringFieldM, longFieldM] [stringIgnoreRule] ∧
    buildColumns [stringFieldM, longFieldM] ([stringIgnoreRule] ++ [noMatchRule]) =
      buildColumns [stringFieldM, longFieldM] [stringIgnoreRule] := by
  refine ⟨ignored_xpath_removes_field.1 [stringFieldM, longFieldM] [stringIgnoreRule]
      stringFieldM stringIgnoreRule (by decide) (by decide),
    (ignored_xpath_removes_field.2.2.2.2.2.2) [stringFieldM, longFieldM] [stringIgnoreRule]
      noMatchRule (by decide)⟩

/-- The schema class of the no-namespace document, `main_elt` requiring a
`foo` child, no target namespace. -/
def noNsCls : ClassDecl :=
  ⟨(none, "main_elt"), [⟨(none, "foo"), false, true⟩]⟩

/-- The namespace-qualified twin of `noNsCls` under prefix `myns`. -/
def qualCls : ClassDecl :=
  ⟨(some "myns", "main_elt"), [⟨(some "myns", "foo"), false, true⟩]⟩

/-- C10: a document whose elements are in no namespace (resolved through
xsi:noNamespaceSchemaLocation) opens successfully, and its unqualified
elements are mapped to Fields exactly as qualified ones are: for any text
value the feature's `foo` field holds that value, with no diagnostics, and
the extracted field values coincide with those of the namespace-qualified
twin of the same document — the engine does not require a target
namespace. -/
theorem no_namespace_document_maps_like_qualified :
    ∀ v : String,
      openDS ⟨false, false⟩ noNsCls ⟨(none, "main_elt"), [((none, "foo"), v)]⟩ =
        (Except.ok [((none, "foo"), FieldValue.single v)], []) ∧
      (mapElem noNsCls [] ⟨(none, "main_elt"), [((none, "foo"), v)]⟩).diags = [] ∧
      (mapElem qualCls [] ⟨(some "myns", "main_elt"),
          [((some "myns", "foo"), v)]⟩).assigns =
        [((some "myns", "foo"), FieldValue.single v)] ∧
      (mapElem noNsCls [] ⟨(none, "main_elt"), [((none, "foo"), v)]⟩).assigns.map
          (fun a => a.2) =
        (mapElem qualCls [] ⟨(some "myns", "main_elt"),
          [((some "myns", "foo"), v)]⟩).assigns.map (fun a => a.2) := by
  intro v
  exact ⟨rfl, rfl, rfl, rfl⟩

end Gmlas
